import Mathlib

/-!
Verification development for the DropCardRs flashcard game.

The repository ships the browser host (`src/www/index.js`) that drives a
WebAssembly game engine.  This file gives a shallow embedding of the host
code that manipulates decks and missed-card exports, together with a model
of the engine core (constructed from the design document, since the engine
sources are not part of the checked tree), and proves the stated
properties about them.

Conventions: JavaScript strings are embedded as Lean `String`; the
JavaScript string helpers used by the host (`split`, `trim`, `join`,
`startsWith`) are re-implemented structurally over `String.data` so that
all definitions compute by kernel reduction.  Numbers that the engine
treats as floats are embedded as rationals.
-/

namespace DropCard

/-- Splits a list of characters at every occurrence of `sep`, keeping
empty segments, exactly like JavaScript `String.prototype.split` with a
one-character separator. -/
def splitChars (sep : Char) : List Char → List (List Char)
  | [] => [[]]
  | c :: rest =>
    match splitChars sep rest with
    | [] => if c == sep then [[], []] else [[c]]
    | h :: t => if c == sep then [] :: h :: t else (c :: h) :: t

/-- JavaScript `s.split(sep)` for a one-character separator. -/
def jsSplit (s : String) (sep : Char) : List String :=
  (splitChars sep s.data).map String.mk

/-- Whitespace characters removed by JavaScript `trim` (the forms that
occur in tab-separated deck files). -/
def isJsWhitespace (c : Char) : Bool :=
  c == ' ' || c == '\t' || c == '\n' || c == '\r'

/-- JavaScript `s.trim()`: removes leading and trailing whitespace. -/
def jsTrim (s : String) : String :=
  String.mk (((s.data.dropWhile isJsWhitespace).reverse.dropWhile isJsWhitespace).reverse)

/-- JavaScript `s.startsWith(c)` for a one-character parameter. -/
def jsStartsWith (s : String) (c : Char) : Bool :=
  match s.data with
  | [] => false
  | c0 :: _ => c0 == c

/-- JavaScript `Array.prototype.join(sep)`. -/
def jsJoin (sep : String) : List String → String
  | [] => ""
  | [x] => x
  | x :: y :: t => x ++ sep ++ jsJoin sep (y :: t)

/-- A missed-card record as returned by the engine's `get_missed_cards()`
accessor and consumed by the host: a raw front/back pair. -/
structure MissedCard where
  raw_front : String
  raw_back : String
deriving DecidableEq, Repr

/-- JavaScript `Array.prototype.filter` when the callback also receives
the element index: `filterWithIndex p i l` filters the array suffix `l`
whose first element sits at index `i` of the original array. -/
def filterWithIndex {α : Type} (p : Nat → α → Bool) : Nat → List α → List α
  | _, [] => []
  | i, c :: rest =>
    if p i c then c :: filterWithIndex p (i + 1) rest
    else filterWithIndex p (i + 1) rest

/-- Embeds the dedup step of `exportToAnki` (src/www/index.js:186-188):
`missed_cards.filter((card, index, self) => index === self.findIndex(c =>
c.raw_front === card.raw_front))`. -/
def uniqueCards (missed_cards : List MissedCard) : List MissedCard :=
  filterWithIndex
    (fun index card =>
      index == missed_cards.findIdx (fun c => c.raw_front == card.raw_front))
    0 missed_cards

/-- Embeds the CSV construction of `exportToAnki` (src/www/index.js:190):
one `raw_front;raw_back` row per surviving card, joined by newlines. -/
def csvContent (missed_cards : List MissedCard) : String :=
  jsJoin "\n" ((uniqueCards missed_cards).map (fun c => c.raw_front ++ ";" ++ c.raw_back))

/-- Embeds `exportToAnki` (src/www/index.js:179-203).  The function
returns `none` when the missed-card list is empty: the early return fires
before any CSV content, blob, link, or download is created.  Otherwise it
returns the CSV text handed to the download machinery. -/
def exportToAnki (missed_cards : List MissedCard) : Option String :=
  if missed_cards.length = 0 then none
  else some (csvContent missed_cards)

/-- Embeds the per-line step of the Anki import handler
(src/www/index.js:339-348): comment lines starting with `#` are dropped,
a line must split into at least two tab-separated fields, and the first
two fields are trimmed to give the front/back pair. -/
def parseAnkiLine (line : String) : Option (String × String) :=
  if jsStartsWith line '#' then none
  else
    let parts := jsSplit line '\t'
    if 2 ≤ parts.length then some (jsTrim (parts.getD 0 ""), jsTrim (parts.getD 1 ""))
    else none

/-- Embeds the deck construction of the Anki import handler
(src/www/index.js:338-348): split the file into lines, drop blank lines,
parse each line, and drop the unparsable ones. -/
def ankiImportDeck (text : String) : List (String × String) :=
  ((jsSplit text '\n').filter (fun line => jsTrim line ≠ "")).filterMap parseAnkiLine

/-- Embeds the final branch of the import handler
(src/www/index.js:350-355): only a non-empty parsed deck is passed on to
deck configuration (and from there to game construction); an empty parse
result leads to an alert and no game. -/
def ankiImportOutcome (text : String) : Option (List (String × String)) :=
  if 0 < (ankiImportDeck text).length then some (ankiImportDeck text) else none

/-- The dedup policy in the claim's words, for comparison with the
source-embedded `uniqueCards`: keep, for each distinct `raw_front`,
exactly the earliest entry of the missed-card log, in order of each
front's first appearance. -/
def specFirstOccurrences : List MissedCard → List MissedCard
  | [] => []
  | c :: rest =>
    c :: specFirstOccurrences (rest.filter (fun d => !(d.raw_front == c.raw_front)))
termination_by l => l.length
decreasing_by
  simp only [List.length_cons]
  exact Nat.lt_succ_of_le (List.length_filter_le _ _)

/-!
The engine core.  The Rust sources of the engine are not part of the
checked tree (only the host that calls it is), so the definitions below
are modelled from the design document, faithful to its words: a pure
state record advanced by total operations, with all randomness drawn from
a seeded deterministic generator stored in the state.  Tuning constants
(spawn interval, concurrency cap, unlock thresholds, fall-speed scaling)
are left open by the document and fixed here to representative values;
none of the proved properties depends on their particular values.
-/

/-- Modelled from the spec: the direction policy, `Normal`, `Reverse` or
`Both`. -/
inductive GameMode
  | Normal
  | Reverse
  | Both
deriving DecidableEq, Repr

/-- Modelled from the spec: the direction a spawned card was dealt. -/
inductive Direction
  | FrontToBack
  | BackToFront
deriving DecidableEq, Repr

/-- Modelled from the spec: an immutable deck entry with its raw texts
and accepted-answer sets for both directions. -/
structure DeckEntry where
  raw_front : String
  raw_back : String
  accepted_front_answers : List String
  accepted_back_answers : List String
deriving DecidableEq, Repr

/-- Modelled from the spec: a spawned, falling card instance. -/
structure Card where
  id : Nat
  entry : DeckEntry
  direction : Direction
  x : ℚ
  y : ℚ
  fall_speed : ℚ
  flipped : Bool
deriving DecidableEq, Repr

/-- Modelled from the spec: the whole per-session game state, including
the seeded deterministic generator. -/
structure Game where
  id : Nat
  board_width : ℚ
  board_height : ℚ
  mode : GameMode
  speed_multiplier : ℚ
  deck : List DeckEntry
  rng : Nat
  score : Nat
  health : Nat
  max_health : Nat
  elapsed_time : ℚ
  spawn_accum : ℚ
  paused : Bool
  game_over : Bool
  active_cards : List Card
  missed_cards : List MissedCard
  next_card_id : Nat
  unlocked_count : Nat
  sample_queue : List DeckEntry
deriving DecidableEq, Repr

/-- Modelled from the spec: the constant maximum health (the scenario in
the design document uses 3). -/
def maxHealthConst : Nat := 3

/-- Modelled from the spec: score awarded per correct match (a fixed
amount). -/
def scorePerMatch : Nat := 10

/-- Modelled from the spec: a seeded deterministic generator; one step of
a 32-bit linear congruential generator. -/
def rngNext (s : Nat) : Nat :=
  (s * 1664525 + 1013904223) % 4294967296

/-- Modelled from the spec: the spawn interval shrinks as score grows but
is bounded below, never reaching zero. -/
def spawnInterval (score : Nat) : ℚ :=
  max (1 / 2) (3 - (score : ℚ) / 20)

/-- Modelled from the spec: the concurrency cap grows with score up to a
maximum. -/
def concurrencyCap (score : Nat) : Nat :=
  min 5 (2 + score / 50)

/-- Modelled from the spec: the number of unlocked entries starts at a
small fixed count and grows with score thresholds, up to the deck size;
monotone in the score. -/
def unlockedCountFor (deckLen score : Nat) : Nat :=
  min deckLen (5 + score / 30)

/-- Modelled from the spec: fall speed derived from a base speed scaled
by difficulty and the configured speed multiplier. -/
def fallSpeedFor (board_height : ℚ) (score : Nat) (mult : ℚ) : ℚ :=
  board_height / 10 * (1 + (score : ℚ) / 100) * mult

/-- Modelled from the spec: answer normalization, whitespace-trimmed and
case-folded. -/
def normalizeAnswer (s : String) : String :=
  String.mk ((jsTrim s).data.map Char.toLower)

/-- Modelled from the spec: each front/back pair is normalized into a
deck entry with accepted-answer sets for both directions. -/
def mkDeckEntry (p : String × String) : DeckEntry :=
  { raw_front := p.1
    raw_back := p.2
    accepted_front_answers := [normalizeAnswer p.1]
    accepted_back_answers := [normalizeAnswer p.2] }

/-- Modelled from the spec: one step of the sampler's reshuffle; removes
a generator-chosen element.  Structured with explicit fuel so that the
definition computes by kernel reduction. -/
def shuffleAux : Nat → List DeckEntry → Nat → List DeckEntry × Nat
  | 0, l, s => (l, s)
  | _ + 1, [], s => ([], s)
  | fuel + 1, a :: l, s =>
    let s' := rngNext s
    let k := s' % (a :: l).length
    let e := (a :: l).getD k a
    let rest := (a :: l).eraseIdx k
    let r := shuffleAux fuel rest s'
    (e :: r.1, r.2)

/-- Modelled from the spec: a Fisher-Yates-style shuffle of the unlocked
subset, driven by the session generator. -/
def shuffleList (l : List DeckEntry) (s : Nat) : List DeckEntry × Nat :=
  shuffleAux l.length l s

/-- Modelled from the spec: the freshly initialized session state used by
construction and by `restart`. -/
def initialState (w h : ℚ) (seed : Nat) (mode : GameMode) (mult : ℚ)
    (entries : List DeckEntry) (sid : Nat) : Game :=
  { id := sid
    board_width := w
    board_height := h
    mode := mode
    speed_multiplier := mult
    deck := entries
    rng := seed
    score := 0
    health := maxHealthConst
    max_health := maxHealthConst
    elapsed_time := 0
    spawn_accum := 0
    paused := false
    game_over := false
    active_cards := []
    missed_cards := []
    next_card_id := 0
    unlocked_count := unlockedCountFor entries.length 0
    sample_queue := [] }

/-- Modelled from the spec: `new(board_width, board_height, seed, mode,
speed_multiplier, deck) -> Game | ConstructionError`; fails (returns
`none`) exactly when the effective deck is empty; on success no other
observable effect occurs. -/
def Game.new (w h : ℚ) (seed : Nat) (mode : GameMode) (mult : ℚ)
    (deck : List (String × String)) : Option Game :=
  let entries := deck.map mkDeckEntry
  if entries.isEmpty then none
  else some (initialState w h seed mode mult entries seed)

/-- Modelled from the spec: `pause()`, a no-op if already in game over. -/
def pause (g : Game) : Game :=
  if g.game_over then g else { g with paused := true }

/-- Modelled from the spec: `resume()` leaves the paused state. -/
def resume (g : Game) : Game :=
  if g.paused then { g with paused := false } else g

/-- Modelled from the spec: `restart()` fully reinitializes the session
in place, drawing a fresh seed-derived generator sequence. -/
def restart (g : Game) : Game :=
  initialState g.board_width g.board_height (rngNext g.rng) g.mode
    g.speed_multiplier g.deck g.id

/-- Modelled from the spec: the direction for a fresh spawn, uniformly
random only under `Both` mode. -/
def chooseDirection (mode : GameMode) (s : Nat) : Direction × Nat :=
  match mode with
  | .Normal => (.FrontToBack, s)
  | .Reverse => (.BackToFront, s)
  | .Both =>
    let s' := rngNext s
    (if s' % 2 == 0 then .FrontToBack else .BackToFront, s')

/-- Modelled from the spec: the shuffled sampler draws the next entry
without replacement from its queue, reshuffling the unlocked subset when
the queue is exhausted; returns `none` only when nothing is unlocked. -/
def drawEntry (g : Game) : Option (DeckEntry × Game) :=
  match g.sample_queue with
  | e :: rest => some (e, { g with sample_queue := rest })
  | [] =>
    let unlocked := g.deck.take g.unlocked_count
    let r := shuffleList unlocked g.rng
    match r.1 with
    | [] => none
    | e :: rest => some (e, { g with sample_queue := rest, rng := r.2 })

/-- Modelled from the spec: the spawner; when the accumulated time
exceeds the interval and the active-card count is below the concurrency
cap, draws one entry, assigns a generator-chosen horizontal position, the
top vertical position, a difficulty-scaled fall speed, a direction per
the mode, and a fresh monotonically increasing id. -/
def trySpawn (g : Game) : Game :=
  if g.spawn_accum < spawnInterval g.score then g
  else if concurrencyCap g.score ≤ g.active_cards.length then g
  else
    match drawEntry g with
    | none => g
    | some (e, g1) =>
      let s1 := rngNext g1.rng
      let xpos : ℚ := ((s1 % 1000 : Nat) : ℚ) / 1000 * g1.board_width
      let dr := chooseDirection g1.mode s1
      let card : Card :=
        { id := g1.next_card_id
          entry := e
          direction := dr.1
          x := xpos
          y := 0
          fall_speed := fallSpeedFor g1.board_height g1.score g1.speed_multiplier
          flipped := false }
      { g1 with
          rng := dr.2
          active_cards := g1.active_cards ++ [card]
          next_card_id := g1.next_card_id + 1
          spawn_accum := g1.spawn_accum - spawnInterval g1.score }

/-- Modelled from the spec: the collision step for one moved card; a card
meeting the bottom that is not yet flipped is marked flipped, appended to
the missed log, and costs one health point; flipped cards never trigger a
second loss. -/
def flipStep (board_height : ℚ) (acc : List Card × Nat × List MissedCard)
    (c : Card) : List Card × Nat × List MissedCard :=
  if c.flipped = false ∧ board_height ≤ c.y then
    (acc.1 ++ [{ c with flipped := true }], acc.2.1 - 1,
      acc.2.2 ++ [{ raw_front := c.entry.raw_front, raw_back := c.entry.raw_back }])
  else
    (acc.1 ++ [c], acc.2.1, acc.2.2)

/-- Modelled from the spec: `tick(dt)`; a no-op when paused or game over
and for non-positive deltas; otherwise drives the spawner, motion, and
the automatic game-over check, in that order.  Cards flipped on a
previous tick are removed after their one-tick observation window. -/
def tick (g : Game) (dt : ℚ) : Game :=
  if g.paused || g.game_over then g
  else if dt ≤ 0 then g
  else
    let g1 := { g with elapsed_time := g.elapsed_time + dt, spawn_accum := g.spawn_accum + dt }
    let g2 := trySpawn g1
    let survivors := g2.active_cards.filter (fun c => !c.flipped)
    let moved := survivors.map (fun c => { c with y := c.y + c.fall_speed * dt })
    let res := moved.foldl (flipStep g2.board_height) ([], g2.health, g2.missed_cards)
    { g2 with
        active_cards := res.1
        health := res.2.1
        missed_cards := res.2.2
        game_over := res.2.1 == 0 }

/-- Modelled from the spec: the accepted-answer set a typed answer is
checked against, for the direction the card was spawned with. -/
def cardAnswers (c : Card) : List String :=
  match c.direction with
  | .FrontToBack => c.entry.accepted_back_answers
  | .BackToFront => c.entry.accepted_front_answers

/-- Modelled from the spec: the matcher scans active cards oldest first
and returns the id of the first unflipped card whose accepted set
contains the normalized input. -/
def findMatch (norm : String) : List Card → Option Nat
  | [] => none
  | c :: rest =>
    if c.flipped = false ∧ norm ∈ cardAnswers c then some c.id
    else findMatch norm rest

/-- Modelled from the spec: `submit_answer(text) -> bool`; a failing
no-op outside `Running`; on a match it scores, unlocks, and removes the
matched card; on no match it returns failure leaving the state
untouched. -/
def submit_answer (g : Game) (text : String) : Bool × Game :=
  if g.paused || g.game_over then (false, g)
  else
    match findMatch (normalizeAnswer text) g.active_cards with
    | none => (false, g)
    | some cid =>
      let new_score := g.score + scorePerMatch
      (true,
        { g with
            active_cards := g.active_cards.filter (fun c => !(c.id == cid))
            score := new_score
            unlocked_count := max g.unlocked_count (unlockedCountFor g.deck.length new_score) })

/-- Modelled from the spec: `is_paused()`. -/
def is_paused (g : Game) : Bool := g.paused

/-- Modelled from the spec: `is_game_over()`. -/
def is_game_over (g : Game) : Bool := g.game_over

/-- Modelled from the spec: `get_score()`. -/
def get_score (g : Game) : Nat := g.score

/-- Modelled from the spec: `get_health()`. -/
def get_health (g : Game) : Nat := g.health

/-- Modelled from the spec: `get_max_health()`. -/
def get_max_health (g : Game) : Nat := g.max_health

/-- Modelled from the spec: `get_missed_cards()`. -/
def get_missed_cards (g : Game) : List MissedCard := g.missed_cards

/-- Modelled from the spec: `get_unlocked_cards()`. -/
def get_unlocked_cards (g : Game) : List DeckEntry := g.deck.take g.unlocked_count

/-- Modelled from the spec: `get_id()`. -/
def get_id (g : Game) : Nat := g.id

/-- Modelled from the spec: one row of the `get_cards()` snapshot, with
the displayed texts derived from the entry and the direction. -/
structure CardView where
  id : Nat
  front_text : String
  back_text : String
  x : ℚ
  y : ℚ
  flipped : Bool
deriving DecidableEq, Repr

/-- Modelled from the spec: the snapshot row for one active card. -/
def cardView (c : Card) : CardView :=
  match c.direction with
  | .FrontToBack =>
    { id := c.id, front_text := c.entry.raw_front, back_text := c.entry.raw_back,
      x := c.x, y := c.y, flipped := c.flipped }
  | .BackToFront =>
    { id := c.id, front_text := c.entry.raw_back, back_text := c.entry.raw_front,
      x := c.x, y := c.y, flipped := c.flipped }

/-- Modelled from the spec: `get_cards()`, a read-only snapshot. -/
def get_cards (g : Game) : List CardView := g.active_cards.map cardView

/-- One externally driven call of the engine's mutating interface, as
issued by the host frame loop and input handlers. -/
inductive GameEvent
  | tick (dt : ℚ)
  | submit (text : String)
  | pauseEv
  | resumeEv
  | restartEv

/-- Applies one event to the state. -/
def stepEvent (g : Game) : GameEvent → Game
  | .tick dt => tick g dt
  | .submit s => (submit_answer g s).2
  | .pauseEv => pause g
  | .resumeEv => resume g
  | .restartEv => restart g

/-- Runs a whole call sequence. -/
def runEvents (g : Game) (evs : List GameEvent) : Game :=
  evs.foldl stepEvent g

/-- The sequence of `get_cards()` snapshots observed along a call
sequence (including the initial state's snapshot). -/
def snapshotTrace (g : Game) (evs : List GameEvent) : List (List CardView) :=
  (evs.scanl stepEvent g).map get_cards

/-- The states reachable through the engine's public interface: freshly
constructed games closed under `tick`, `submit_answer`, `pause`,
`resume`, and `restart`. -/
inductive Reachable : Game → Prop
  | init (w h : ℚ) (seed : Nat) (mode : GameMode) (mult : ℚ)
      (deck : List (String × String)) (g : Game) :
      Game.new w h seed mode mult deck = some g → Reachable g
  | tick_step (g : Game) (dt : ℚ) : Reachable g → Reachable (tick g dt)
  | submit_step (g : Game) (s : String) : Reachable g → Reachable (submit_answer g s).2
  | pause_step (g : Game) : Reachable g → Reachable (pause g)
  | resume_step (g : Game) : Reachable g → Reachable (resume g)
  | restart_step (g : Game) : Reachable g → Reachable (restart g)

/-- A JavaScript number as it appears in the host's frame-delta
computation: either an ordinary numeric value or `NaN`. -/
inductive JsNum
  | nan
  | num (val : ℚ)
deriving DecidableEq

/-- Embeds `deltaTime || 0` from the host game loop
(src/www/index.js:220): JavaScript `||` replaces the falsy numbers `0`
and `NaN` by the right operand `0` and keeps any other number. -/
def jsOrZero : JsNum → ℚ
  | .nan => 0
  | .num v => if v = 0 then 0 else v

/-- The host-visible outcome of `initializeAndRunGame`
(src/www/index.js:62-71): either the catch branch fires, restoring the
start screen and never entering the game loop, or the loop runs with the
constructed game. -/
inductive HostOutcome
  | backToStart
  | running (g : Game)
deriving DecidableEq

/-- Embeds the construction part of `initializeAndRunGame`
(src/www/index.js:62-71): `Game.new` is attempted; on a construction
error the host returns to the start screen before any loop is started,
otherwise the game loop runs with the new instance. -/
def initAndRunGame (w h : ℚ) (seed : Nat) (mode : GameMode) (mult : ℚ)
    (configuredDeck : List (String × String)) : HostOutcome :=
  match Game.new w h seed mode mult configuredDeck with
  | none => .backToStart
  | some g => .running g

/-- A concrete deck used by the witness theorems. -/
def deckEx : List (String × String) :=
  [("diolch", "thank you"), ("bore da", "good morning")]

/-- A fallback game, only used as the `Option.getD` default below. -/
def fallbackGame : Game :=
  initialState 1 1 0 GameMode.Normal 1 [mkDeckEntry ("a", "b")] 0

/-- A concrete freshly constructed game used by the witness theorems. -/
def gEx : Game :=
  (Game.new 600 800 42 GameMode.Normal 1 deckEx).getD fallbackGame

/-- A concrete falling card over the first example entry. -/
def cardEx : Card :=
  { id := 0
    entry := mkDeckEntry ("diolch", "thank you")
    direction := Direction.FrontToBack
    x := 100
    y := 50
    fall_speed := 80
    flipped := false }

/-- A running game with one active card, used by the witness theorems. -/
def gCardEx : Game :=
  { gEx with active_cards := [cardEx] }

/-- Helper: the matcher returns no id when the normalized input sits in
no active card's accepted-answer set. -/
theorem findMatch_eq_none (s : String) (l : List Card)
    (hno : ∀ c ∈ l, s ∉ cardAnswers c) : findMatch s l = none := by
  induction l with
  | nil => rfl
  | cons c rest ih =>
    have hc := hno c (List.mem_cons_self c rest)
    simp only [findMatch]
    rw [if_neg]
    · exact ih (fun d hd => hno d (List.mem_cons_of_mem c hd))
    · rintro ⟨-, hmem⟩
      exact hc hmem

/-- C1: two Game instances constructed with the same seed, mode, board
dimensions, and deck, fed the identical sequence of tick/submit calls,
produce identical sequences of `get_cards()` snapshots and identical
final score and health. -/
theorem c1_two_run_determinism (w h : ℚ) (seed : Nat) (mode : GameMode)
    (mult : ℚ) (deck : List (String × String)) (evs : List GameEvent)
    (g1 g2 : Game)
    (h1 : Game.new w h seed mode mult deck = some g1)
    (h2 : Game.new w h seed mode mult deck = some g2) :
    snapshotTrace g1 evs = snapshotTrace g2 evs ∧
    get_score (runEvents g1 evs) = get_score (runEvents g2 evs) ∧
    get_health (runEvents g1 evs) = get_health (runEvents g2 evs) := by
  have hg : g1 = g2 := Option.some.inj (h1.symm.trans h2)
  subst hg
  exact ⟨rfl, rfl, rfl⟩

/-- Witness for C1 at a concrete construction and call sequence. -/
theorem c1_two_run_determinism_witness :
    snapshotTrace gEx [GameEvent.tick 1, GameEvent.submit "x"] =
      snapshotTrace gEx [GameEvent.tick 1, GameEvent.submit "x"] ∧
    get_score (runEvents gEx [GameEvent.tick 1, GameEvent.submit "x"]) =
      get_score (runEvents gEx [GameEvent.tick 1, GameEvent.submit "x"]) ∧
    get_health (runEvents gEx [GameEvent.tick 1, GameEvent.submit "x"]) =
      get_health (runEvents gEx [GameEvent.tick 1, GameEvent.submit "x"]) :=
  c1_two_run_determinism 600 800 42 GameMode.Normal 1 deckEx
    [GameEvent.tick 1, GameEvent.submit "x"] gEx gEx rfl rfl

/-- Helper: the freshly initialized state satisfies the game-over
equivalence. -/
theorem inv_initialState (w h : ℚ) (seed : Nat) (mode : GameMode) (mult : ℚ)
    (entries : List DeckEntry) (sid : Nat) :
    ((initialState w h seed mode mult entries sid).game_over = true ↔
      (initialState w h seed mode mult entries sid).health = 0) := by
  simp [initialState, maxHealthConst]

/-- Helper: `tick` preserves the game-over equivalence. -/
theorem inv_tick (g : Game) (dt : ℚ)
    (ih : g.game_over = true ↔ g.health = 0) :
    ((tick g dt).game_over = true ↔ (tick g dt).health = 0) := by
  unfold tick
  split
  · exact ih
  · split
    · exact ih
    · simp

/-- Helper: `submit_answer` preserves the game-over equivalence. -/
theorem inv_submit (g : Game) (s : String)
    (ih : g.game_over = true ↔ g.health = 0) :
    ((submit_answer g s).2.game_over = true ↔ (submit_answer g s).2.health = 0) := by
  unfold submit_answer
  split
  · exact ih
  · split
    · exact ih
    · simpa using ih

/-- Helper: `pause` preserves the game-over equivalence. -/
theorem inv_pause (g : Game)
    (ih : g.game_over = true ↔ g.health = 0) :
    ((pause g).game_over = true ↔ (pause g).health = 0) := by
  unfold pause
  split
  · exact ih
  · simpa using ih

/-- Helper: `resume` preserves the game-over equivalence. -/
theorem inv_resume (g : Game)
    (ih : g.game_over = true ↔ g.health = 0) :
    ((resume g).game_over = true ↔ (resume g).health = 0) := by
  unfold resume
  split
  · simpa using ih
  · exact ih

/-- C2: in every reachable state of a session, `is_game_over()` returns
true exactly when `get_health()` returns 0. -/
theorem c2_game_over_iff_health_zero (g : Game) (hr : Reachable g) :
    is_game_over g = true ↔ get_health g = 0 := by
  induction hr with
  | init w h seed mode mult deck g0 hnew =>
    unfold Game.new at hnew
    by_cases he : (deck.map mkDeckEntry).isEmpty
    · simp [he] at hnew
    · simp only [he, if_neg, Bool.false_eq_true, ite_false, Option.some.injEq] at hnew
      rw [← hnew]
      exact inv_initialState _ _ _ _ _ _ _
  | tick_step g0 dt _ ih => exact inv_tick g0 dt ih
  | submit_step g0 s _ ih => exact inv_submit g0 s ih
  | pause_step g0 _ ih => exact inv_pause g0 ih
  | resume_step g0 _ ih => exact inv_resume g0 ih
  | restart_step g0 _ _ => exact inv_initialState _ _ _ _ _ _ _

/-- Witness for C2 at a concrete reachable state. -/
theorem c2_game_over_iff_health_zero_witness :
    is_game_over gEx = true ↔ get_health gEx = 0 :=
  c2_game_over_iff_health_zero gEx
    (Reachable.init 600 800 42 GameMode.Normal 1 deckEx gEx rfl)

/-- C3: in a running state, submitting text that matches no active
card's accepted-answer set returns false and leaves the entire game
state unchanged. -/
theorem c3_no_match_atomic (g : Game) (text : String)
    (hp : g.paused = false) (hgo : g.game_over = false)
    (hnm : ∀ c ∈ g.active_cards, normalizeAnswer text ∉ cardAnswers c) :
    submit_answer g text = (false, g) := by
  unfold submit_answer
  rw [hp, hgo]
  simp [findMatch_eq_none _ _ hnm]

/-- Witness for C3: a wrong answer against a concrete one-card running
state fails and changes nothing. -/
theorem c3_no_match_atomic_witness :
    gCardEx.paused = false ∧ gCardEx.game_over = false ∧
    submit_answer gCardEx "wrong" = (false, gCardEx) :=
  ⟨rfl, rfl, c3_no_match_atomic gCardEx "wrong" rfl rfl (by decide)⟩

/-- C4: with `paused` or `game_over` set, `tick` changes nothing at all
(in particular no card position, elapsed time, spawn accumulation,
score, or health). -/
theorem c4_tick_noop_paused_or_over (g : Game) (dt : ℚ)
    (hpo : g.paused = true ∨ g.game_over = true) :
    tick g dt = g := by
  rcases hpo with hp | hgo
  · simp [tick, hp]
  · simp [tick, hgo]

/-- Witness for C4: ticking a concrete paused game by 5 seconds is the
identity. -/
theorem c4_tick_noop_paused_or_over_witness :
    ((pause gEx).paused = true ∨ (pause gEx).game_over = true) ∧
    tick (pause gEx) 5 = pause gEx :=
  ⟨Or.inl rfl, c4_tick_noop_paused_or_over (pause gEx) 5 (Or.inl rfl)⟩

/-- C5: a non-positive delta makes `tick` a no-op, and the host's
`deltaTime || 0` expression passes exactly 0 to `tick` whenever the
computed delta is `NaN` or 0 (as on the first frame, where no prior
timestamp exists). -/
theorem c5_nonpositive_delta_noop (g : Game) (dt : ℚ) (d : JsNum) :
    (dt ≤ 0 → tick g dt = g) ∧
    ((d = JsNum.nan ∨ d = JsNum.num 0) → jsOrZero d = 0) := by
  constructor
  · intro hdt
    unfold tick
    by_cases hp : (g.paused || g.game_over) = true
    · simp [hp]
    · simp [hp, hdt]
  · rintro (rfl | rfl)
    · rfl
    · simp [jsOrZero]

/-- Witness for C5 at delta 0 and a `NaN` host frame delta. -/
theorem c5_nonpositive_delta_noop_witness :
    (0 : ℚ) ≤ 0 ∧ tick gEx 0 = gEx ∧ jsOrZero JsNum.nan = 0 :=
  ⟨le_refl 0, (c5_nonpositive_delta_noop gEx 0 JsNum.nan).1 (le_refl 0),
    (c5_nonpositive_delta_noop gEx 0 JsNum.nan).2 (Or.inl rfl)⟩

/-- C6: construction with an empty effective deck fails with a
construction error and yields no partial game, and the host's catch
branch then returns to the start screen; whenever the host does run the
loop, it runs it with a successfully constructed game. -/
theorem c6_empty_deck_construction (w h : ℚ) (seed : Nat) (mode : GameMode)
    (mult : ℚ) (deck : List (String × String)) :
    (deck = [] →
      Game.new w h seed mode mult deck = none ∧
      initAndRunGame w h seed mode mult deck = HostOutcome.backToStart) ∧
    (∀ g : Game, initAndRunGame w h seed mode mult deck = HostOutcome.running g →
      Game.new w h seed mode mult deck = some g) := by
  constructor
  · rintro rfl
    exact ⟨rfl, rfl⟩
  · intro g hrun
    cases hnew : Game.new w h seed mode mult deck with
    | none => simp [initAndRunGame, hnew] at hrun
    | some g' =>
      simp only [initAndRunGame, hnew, HostOutcome.running.injEq] at hrun
      exact congrArg some hrun

/-- Witness for C6 at the empty deck. -/
theorem c6_empty_deck_construction_witness :
    Game.new 600 800 42 GameMode.Normal 1 [] = none ∧
    initAndRunGame 600 800 42 GameMode.Normal 1 [] = HostOutcome.backToStart :=
  (c6_empty_deck_construction 600 800 42 GameMode.Normal 1 []).1 rfl

/-- C10: with no missed cards the Anki export does nothing: it returns
before any CSV content, blob, link, or download is produced. -/
theorem c10_empty_export_noop (missed : List MissedCard)
    (hlen : missed.length = 0) :
    exportToAnki missed = none := by
  simp [exportToAnki, hlen]

/-- Witness for C10 at the empty missed-card list. -/
theorem c10_empty_export_noop_witness :
    ([] : List MissedCard).length = 0 ∧ exportToAnki [] = none :=
  ⟨rfl, c10_empty_export_noop [] rfl⟩

/-- C7: every pair produced by the Anki import handler stems from a
non-blank, non-comment line with at least two tab-separated fields, with
front and back trimmed from the first two fields; and an empty parse
result never starts a game. -/
theorem c7_import_wellformed (text : String) :
    (∀ p ∈ ankiImportDeck text,
      ∃ line, line ∈ jsSplit text '\n' ∧ jsTrim line ≠ "" ∧
        jsStartsWith line '#' = false ∧ 2 ≤ (jsSplit line '\t').length ∧
        p.1 = jsTrim ((jsSplit line '\t').getD 0 "") ∧
        p.2 = jsTrim ((jsSplit line '\t').getD 1 "")) ∧
    (ankiImportDeck text = [] → ankiImportOutcome text = none) := by
  constructor
  · intro p hp
    unfold ankiImportDeck at hp
    rw [List.mem_filterMap] at hp
    obtain ⟨line, hline, hparse⟩ := hp
    rw [List.mem_filter] at hline
    obtain ⟨hmem, htrim⟩ := hline
    unfold parseAnkiLine at hparse
    by_cases hhash : jsStartsWith line '#' = true
    · rw [if_pos hhash] at hparse
      exact absurd hparse (by simp)
    · rw [Bool.not_eq_true] at hhash
      rw [hhash] at hparse
      simp only [Bool.false_eq_true, if_false] at hparse
      by_cases hlen : 2 ≤ (jsSplit line '\t').length
      · rw [if_pos hlen] at hparse
        refine ⟨line, hmem, by simpa using htrim, hhash, hlen, ?_, ?_⟩
        · exact congrArg Prod.fst (Option.some.inj hparse).symm
        · exact congrArg Prod.snd (Option.some.inj hparse).symm
      · rw [if_neg hlen] at hparse
        exact absurd hparse (by simp)
  · intro hempty
    simp [ankiImportOutcome, hempty]

/-- Witness for C7 at a concrete two-field import line. -/
theorem c7_import_wellformed_witness :
    ("hello", "world") ∈ ankiImportDeck "hello\tworld" ∧
    (∃ line, line ∈ jsSplit "hello\tworld" '\n' ∧ jsTrim line ≠ "" ∧
      jsStartsWith line '#' = false ∧ 2 ≤ (jsSplit line '\t').length ∧
      ("hello", "world").1 = jsTrim ((jsSplit line '\t').getD 0 "") ∧
      ("hello", "world").2 = jsTrim ((jsSplit line '\t').getD 1 "")) :=
  ⟨by decide,
    (c7_import_wellformed "hello\tworld").1 ("hello", "world") (by decide)⟩

/-- Helper: the index-based dedup filter of `exportToAnki` computes the
first-occurrence dedup, relative to an already-consumed part `pre` of the
array. -/
theorem filterWithIndex_dedup (suf : List MissedCard) :
    ∀ pre : List MissedCard,
      filterWithIndex
        (fun index card =>
          index == (pre ++ suf).findIdx (fun c => c.raw_front == card.raw_front))
        pre.length suf
      = specFirstOccurrences
          (suf.filter (fun c => !decide (c.raw_front ∈ pre.map MissedCard.raw_front))) := by
  induction suf with
  | nil => intro pre; simp [filterWithIndex, specFirstOccurrences]
  | cons c rest ih =>
    intro pre
    have hsplit := List.findIdx_append (fun d => d.raw_front == c.raw_front) pre (c :: rest)
    have hhead : (c :: rest).findIdx (fun d => d.raw_front == c.raw_front) = 0 := by
      rw [List.findIdx_cons]
      simp
    have hpre := ih (pre ++ [c])
    rw [List.length_append, List.length_cons, List.length_nil] at hpre
    simp only [Nat.zero_add] at hpre
    rw [List.append_assoc] at hpre
    simp only [List.cons_append, List.nil_append] at hpre
    by_cases hmem : c.raw_front ∈ pre.map MissedCard.raw_front
    · have hex : ∃ e ∈ pre, (fun d => d.raw_front == c.raw_front) e := by
        rw [List.mem_map] at hmem
        obtain ⟨e, he, hfe⟩ := hmem
        exact ⟨e, he, by simp [hfe]⟩
      have hlt : pre.findIdx (fun d => d.raw_front == c.raw_front) < pre.length :=
        List.findIdx_lt_length_of_exists hex
      have hidx : (pre ++ c :: rest).findIdx (fun d => d.raw_front == c.raw_front) =
          pre.findIdx (fun d => d.raw_front == c.raw_front) := by
        rw [hsplit, if_pos hlt]
      have hcond :
          (pre.length == (pre ++ c :: rest).findIdx (fun d => d.raw_front == c.raw_front)) = false := by
        rw [hidx]
        exact beq_eq_false_iff_ne.mpr (Nat.ne_of_gt hlt)
      rw [filterWithIndex, hcond]
      simp only [Bool.false_eq_true, if_false]
      rw [hpre]
      have hdrop : (!decide (c.raw_front ∈ pre.map MissedCard.raw_front)) = false := by
        simp [hmem]
      rw [List.filter_cons, hdrop]
      simp only [Bool.false_eq_true, if_false]
      have hfe : List.filter
            (fun d => !decide (d.raw_front ∈ (pre ++ [c]).map MissedCard.raw_front)) rest =
          List.filter
            (fun d => !decide (d.raw_front ∈ pre.map MissedCard.raw_front)) rest := by
        apply List.filter_congr
        intro d _
        by_cases hd : d.raw_front = c.raw_front
        · simp [hd, hmem, List.mem_append]
        · simp [hd, List.mem_append]
      rw [hfe]
    · have hall : ∀ e ∈ pre, (fun d => d.raw_front == c.raw_front) e = false := by
        intro e he
        simp only [beq_eq_false_iff_ne, ne_eq]
        intro hfe
        exact hmem (List.mem_map.mpr ⟨e, he, hfe⟩)
      have hpl : pre.findIdx (fun d => d.raw_front == c.raw_front) = pre.length :=
        List.findIdx_eq_length_of_false hall
      have hidx : (pre ++ c :: rest).findIdx (fun d => d.raw_front == c.raw_front) =
          pre.length := by
        rw [hsplit, hpl, if_neg (lt_irrefl _), hhead]
        exact Nat.zero_add _
      have hcond :
          (pre.length == (pre ++ c :: rest).findIdx (fun d => d.raw_front == c.raw_front)) = true := by
        rw [hidx]
        simp
      rw [filterWithIndex, hcond]
      simp only [if_true]
      rw [hpre]
      have hkeep : (!decide (c.raw_front ∈ pre.map MissedCard.raw_front)) = true := by
        simp [hmem]
      rw [List.filter_cons, hkeep]
      simp only [if_true]
      rw [specFirstOccurrences, List.filter_filter]
      have hfe : List.filter
            (fun d => !decide (d.raw_front ∈ (pre ++ [c]).map MissedCard.raw_front)) rest =
          List.filter
            (fun a => (!(a.raw_front == c.raw_front)) &&
              (!decide (a.raw_front ∈ pre.map MissedCard.raw_front))) rest := by
        apply List.filter_congr
        intro d _
        by_cases hd : d.raw_front = c.raw_front
        · simp [hd, List.mem_append]
        · by_cases hm : d.raw_front ∈ pre.map MissedCard.raw_front
          · simp [hd, hm, List.mem_append]
          · simp [hd, hm, List.mem_append]
      rw [hfe]

/-- Helper: the source dedup equals the first-occurrence dedup. -/
theorem uniqueCards_eq_specFirstOccurrences (m : List MissedCard) :
    uniqueCards m = specFirstOccurrences m := by
  have h := filterWithIndex_dedup m []
  simpa [uniqueCards] using h

/-- Helper: dedup output elements come from the input log. -/
theorem specFirstOccurrences_subset (m : List MissedCard) :
    ∀ x ∈ specFirstOccurrences m, x ∈ m := by
  induction m using specFirstOccurrences.induct with
  | case1 =>
    intro x hx
    simp [specFirstOccurrences] at hx
  | case2 c rest ih =>
    intro x hx
    simp only [specFirstOccurrences] at hx
    rcases List.mem_cons.mp hx with h | h
    · exact h ▸ List.mem_cons_self _ _
    · exact List.mem_cons_of_mem _ (List.mem_of_mem_filter (ih x h))

/-- Helper: the dedup output has pairwise distinct fronts. -/
theorem front_nodup_specFirstOccurrences (m : List MissedCard) :
    ((specFirstOccurrences m).map MissedCard.raw_front).Nodup := by
  induction m using specFirstOccurrences.induct with
  | case1 => simp [specFirstOccurrences]
  | case2 c rest ih =>
    simp only [specFirstOccurrences, List.map_cons]
    refine List.nodup_cons.mpr ⟨?_, ih⟩
    intro hmem
    rw [List.mem_map] at hmem
    obtain ⟨d, hd, hfront⟩ := hmem
    have hdm := specFirstOccurrences_subset _ d hd
    have hpd := List.mem_filter.mp hdm
    simp [hfront] at hpd

/-- Helper: the dedup output covers exactly the fronts of the input
log. -/
theorem front_mem_specFirstOccurrences (m : List MissedCard) (f : String) :
    f ∈ m.map MissedCard.raw_front ↔
      f ∈ (specFirstOccurrences m).map MissedCard.raw_front := by
  induction m using specFirstOccurrences.induct with
  | case1 => simp [specFirstOccurrences]
  | case2 c rest ih =>
    simp only [specFirstOccurrences, List.map_cons, List.mem_cons]
    constructor
    · rintro (h | h)
      · exact Or.inl h
      · by_cases hf : f = c.raw_front
        · exact Or.inl hf
        · right
          rw [← ih]
          rw [List.mem_map] at h ⊢
          obtain ⟨d, hd, rfl⟩ := h
          exact ⟨d, List.mem_filter.mpr ⟨hd, by simp [hf]⟩, rfl⟩
    · rintro (h | h)
      · exact Or.inl h
      · right
        rw [← ih] at h
        rw [List.mem_map] at h ⊢
        obtain ⟨d, hd, rfl⟩ := h
        exact ⟨d, List.mem_of_mem_filter hd, rfl⟩

/-- C8: for a non-empty missed-card list, the export emits the CSV built
from the deduplicated rows, whose fronts are pairwise distinct and cover
exactly the distinct `raw_front` values of the log: one row per distinct
front. -/
theorem c8_export_one_row_per_front (missed : List MissedCard)
    (hne : missed ≠ []) :
    exportToAnki missed =
      some (jsJoin "\n" ((uniqueCards missed).map
        (fun c => c.raw_front ++ ";" ++ c.raw_back))) ∧
    ((uniqueCards missed).map MissedCard.raw_front).Nodup ∧
    (∀ f, f ∈ (uniqueCards missed).map MissedCard.raw_front ↔
      f ∈ missed.map MissedCard.raw_front) := by
  refine ⟨?_, ?_, ?_⟩
  · have hlen : missed.length ≠ 0 := fun h0 => hne (List.length_eq_zero.mp h0)
    simp [exportToAnki, hlen, csvContent]
  · rw [uniqueCards_eq_specFirstOccurrences]
    exact front_nodup_specFirstOccurrences _
  · intro f
    rw [uniqueCards_eq_specFirstOccurrences]
    exact (front_mem_specFirstOccurrences _ f).symm

/-- A concrete missed-card log with a duplicated front, used by the
witness theorems. -/
def mEx : List MissedCard :=
  [{ raw_front := "a", raw_back := "1" },
   { raw_front := "a", raw_back := "2" },
   { raw_front := "b", raw_back := "3" }]

/-- Witness for C8 at a concrete log with a duplicate front. -/
theorem c8_export_one_row_per_front_witness :
    mEx ≠ [] ∧
    (exportToAnki mEx =
      some (jsJoin "\n" ((uniqueCards mEx).map
        (fun c => c.raw_front ++ ";" ++ c.raw_back))) ∧
    ((uniqueCards mEx).map MissedCard.raw_front).Nodup ∧
    (∀ f, f ∈ (uniqueCards mEx).map MissedCard.raw_front ↔
      f ∈ mEx.map MissedCard.raw_front)) :=
  ⟨by decide, c8_export_one_row_per_front mEx (by decide)⟩

/-- C9: the export's dedup keeps, for each distinct front, exactly the
earliest entry of the missed-card log (hence that entry's `raw_back`),
in order of each front's first appearance, and each row is formatted as
`raw_front;raw_back`. -/
theorem c9_dedup_keeps_earliest (missed : List MissedCard) :
    uniqueCards missed = specFirstOccurrences missed ∧
    csvContent missed =
      jsJoin "\n" ((specFirstOccurrences missed).map
        (fun c => c.raw_front ++ ";" ++ c.raw_back)) := by
  refine ⟨uniqueCards_eq_specFirstOccurrences missed, ?_⟩
  rw [csvContent, uniqueCards_eq_specFirstOccurrences]

end DropCard

